import Mathlib

/-!
# nativefier: `src/options/optionsMain.js`

A shallow embedding of `optionsFactory` and its helpers
(`sanitizeFilename`, `sanitizeOptions`, `getFakeUserAgent`), followed by
theorems about the configuration it hands to its completion callback.

* JavaScript strings are lists of UTF-16 code units (`JSString`).
* The mutable `options` object is a record threaded through the two
  `async.waterfall` tasks together with a log of the collaborator calls.
* Everything imported from outside the file (`inferIcon`, `inferTitle`,
  `inferOs`, `normalizeUrl`, `sanitize-filename`, `lodash.kebabCase`, `os`,
  `process.cwd`, `package.json`) is a field of `Env`.
-/

namespace Nativefier

/-! ## Strings -/

/-- A JavaScript string: its sequence of UTF-16 code units. -/
abbrev JSString := List Nat

/-- UTF-16 encoding of a literal, used only to write string constants readably. -/
def utf16 (s : String) : JSString :=
  s.toList.flatMap fun c =>
    if c.toNat < 0x10000 then [c.toNat]
    else [0xD800 + (c.toNat - 0x10000) / 0x400, 0xDC00 + (c.toNat - 0x10000) % 0x400]

/-- Lower-casing of one code unit, as `String.prototype.toLowerCase` does it.
ASCII `A`..`Z` go to `a`..`z`. Of the code points outside ASCII only two have a
lower-case mapping that contains an ASCII code unit: U+212A KELVIN SIGN (to `k`)
and U+0130 (to `i` followed by U+0307). Every other code unit outside ASCII is
left as it is: its real lower-case form has no ASCII code unit either, so the
comparisons of `optionsFactory` against ASCII literals are not affected. -/
def lowerUnit (c : Nat) : List Nat :=
  if 0x41 ≤ c ∧ c ≤ 0x5A then [c + 0x20]
  else if c = 0x212A then [0x6B]
  else if c = 0x0130 then [0x69, 0x0307]
  else [c]

/-- `String.prototype.toLowerCase`. -/
def toLowerCase (s : JSString) : JSString := s.flatMap lowerUnit

/-- ECMAScript `WhiteSpace` and `LineTerminator` code units, the ones `trim` strips. -/
def isWhiteSpace (c : Nat) : Bool :=
  c = 0x09 || c = 0x0A || c = 0x0B || c = 0x0C || c = 0x0D || c = 0x20 || c = 0xA0
    || c = 0x1680 || (0x2000 ≤ c && c ≤ 0x200A) || c = 0x2028 || c = 0x2029
    || c = 0x202F || c = 0x205F || c = 0x3000 || c = 0xFEFF

/-- `String.prototype.trim`. -/
def trim (s : JSString) : JSString :=
  ((s.dropWhile isWhiteSpace).reverse.dropWhile isWhiteSpace).reverse

/-- The character class `[^\x00-\x7F]`. -/
def nonAscii (c : Nat) : Bool := !(decide (c ≤ 0x7F))

/-- `str.replace(re, '')` for a regular expression `re` WITHOUT the `g` flag that
matches single code units satisfying `p`: only the first match is removed. -/
def replaceFirst (p : Nat → Bool) : JSString → JSString
  | [] => []
  | c :: cs => if p c then cs else c :: replaceFirst p cs

/-! ## Data model -/

/-- The values `inpOptions.name` takes: absent, a string, or (see the comment at
line 85 of the source) the accessor function of commander.js, which is truthy
and whose `length` is 0. -/
inductive NameVal where
  | undefined
  | str (s : JSString)
  | commanderFn
  deriving DecidableEq, Repr

/-- A value that is `undefined`, `null` or a proper value. -/
inductive JSValue (α : Type) where
  | undefined
  | null
  | value (a : α)
  deriving DecidableEq, Repr

/-- The caller-supplied `inpOptions`; `none` is an absent (undefined) field. -/
structure InpOptions where
  name : NameVal
  targetUrl : Option JSString
  platform : Option JSString
  arch : Option JSString
  electronVersion : Option JSString
  out : Option JSString
  overwrite : Option Bool
  conceal : Option Bool
  icon : Option JSString
  counter : Option Bool
  width : Option Int
  height : Option Int
  showMenuBar : Option Bool
  userAgent : Option JSString
  ignoreCertificate : Option Bool
  insecure : Option Bool
  flash : Option JSString
  inject : Option JSString
  fullScreen : Option Bool
  honest : Option Bool
  deriving DecidableEq, Repr

/-- The `options` object built at lines 32..54. For `overwrite` and `icon`,
`none` is `undefined`. -/
structure Options where
  dir : JSString
  name : NameVal
  targetUrl : JSString
  platform : JSString
  arch : JSString
  version : JSString
  nativefierVersion : JSString
  out : JSString
  overwrite : Option Bool
  asar : Bool
  icon : Option JSString
  counter : Bool
  width : Int
  height : Int
  showMenuBar : Bool
  userAgent : JSValue JSString
  ignoreCertificate : Bool
  insecure : Bool
  flashPluginDir : JSValue JSString
  inject : JSValue JSString
  fullScreen : Bool
  deriving DecidableEq, Repr

/-- How the promise returned by `inferIcon` settles. -/
inductive IconOutcome where
  | resolved (pngPath : JSString)
  | rejected (error : JSString)
  deriving DecidableEq, Repr

/-- What `inferTitle` passes to its callback `(error, pageTitle)`: a truthy error,
or no error and the title of the page. -/
inductive TitleOutcome where
  | failed (error : JSString)
  | succeeded (pageTitle : JSString)
  deriving DecidableEq, Repr

/-- Everything `optionsMain.js` imports or reads from the host. -/
structure Env where
  /-- `path.join(__dirname, '../../', 'app')`. -/
  placeholderAppDir : JSString
  /-- `packageJson.version`. -/
  packageVersion : JSString
  /-- `process.cwd()`. -/
  cwd : JSString
  /-- `os.platform()`. -/
  osPlatform : JSString
  /-- `inferOs.inferPlatform()`. -/
  inferPlatform : JSString
  /-- `inferOs.inferArch()`. -/
  inferArch : JSString
  /-- `normalizeUrl(inpOptions.targetUrl)`. -/
  normalizeUrl : Option JSString → JSString
  /-- `inferIcon(targetUrl, platform)`. -/
  inferIcon : JSString → JSString → IconOutcome
  /-- `inferTitle(targetUrl, callback)`. -/
  inferTitle : JSString → TitleOutcome
  /-- The npm package `sanitize-filename`. -/
  sanitizeFilenameLib : JSString → JSString
  /-- The function `_.kebabCase` of lodash. -/
  kebabCase : JSString → JSString

/-- A call the pipeline makes to the outside, in the order made. -/
inductive Event where
  | inferIcon (targetUrl platform : JSString)
  | inferTitle (targetUrl : JSString)
  | warnIcon (error : JSString)
  | warnName
  deriving DecidableEq, Repr

/-- The mutable state shared by the waterfall tasks. -/
structure State where
  options : Options
  log : List Event
  deriving DecidableEq, Repr

/-- How a call of `optionsFactory` ends: the completion callback is called with
`(error, options)`, where `none` is an absent error, or an exception escapes. -/
inductive Outcome where
  | called (error : Option JSString) (options : Options)
  | threw
  deriving DecidableEq, Repr

/-- A whole run: the collaborator calls made and how it ended. -/
structure Run where
  log : List Event
  outcome : Outcome
  deriving DecidableEq, Repr

/-! ## Constants -/

/-- Line 16. -/
def ELECTRON_VERSION : JSString := utf16 "0.36.4"

/-- Line 17. -/
def DEFAULT_APP_NAME : JSString := utf16 "APP"

/-! ## The program -/

/-- The expression `a || d` for an optional string `a` and a string `d`: the
empty string is falsy. -/
def orStr (a : Option JSString) (d : JSString) : JSString :=
  match a with
  | some s => if s = [] then d else s
  | none => d

/-- The expression `a || false` for an optional boolean. -/
def orFalse (a : Option Bool) : Bool :=
  match a with
  | some b => b
  | none => false

/-- The expression `a || d` for an optional number: `0` is falsy. -/
def orNum (a : Option Int) (d : Int) : Int :=
  match a with
  | some n => if n = 0 then d else n
  | none => d

/-- The expression `a || null` for an optional string. -/
def orNull (a : Option JSString) : JSValue JSString :=
  match a with
  | some s => if s = [] then .null else .value s
  | none => .null

/-- The function `getFakeUserAgent` (lines 121..137): `undefined` on a host that is
none of the three. -/
def getFakeUserAgent (env : Env) : JSValue JSString :=
  if env.osPlatform = utf16 "darwin" then
    .value (utf16 "Mozilla/5.0 (Macintosh; Intel Mac OS X 10_10_1) AppleWebKit/537.36 (KHTML, like Gecko) Chrome/41.0.2227.1 Safari/537.36")
  else if env.osPlatform = utf16 "win32" then
    .value (utf16 "Mozilla/5.0 (Windows NT 6.1) AppleWebKit/537.36 (KHTML, like Gecko) Chrome/41.0.2228.0 Safari/537.36")
  else if env.osPlatform = utf16 "linux" then
    .value (utf16 "Mozilla/5.0 (X11; Linux x86_64) AppleWebKit/537.36 (KHTML, like Gecko) Chrome/41.0.2227.0 Safari/537.36")
  else .undefined

/-- The expression `inpOptions.userAgent || getFakeUserAgent()`. -/
def orFakeUserAgent (env : Env) (a : Option JSString) : JSValue JSString :=
  match a with
  | some s => if s = [] then getFakeUserAgent env else .value s
  | none => getFakeUserAgent env

/-- The object literal of lines 32..54. -/
def defaults (env : Env) (inpOptions : InpOptions) : Options where
  dir := env.placeholderAppDir
  name := inpOptions.name
  targetUrl := env.normalizeUrl inpOptions.targetUrl
  platform := orStr inpOptions.platform env.inferPlatform
  arch := orStr inpOptions.arch env.inferArch
  version := orStr inpOptions.electronVersion ELECTRON_VERSION
  nativefierVersion := env.packageVersion
  out := orStr inpOptions.out env.cwd
  overwrite := inpOptions.overwrite
  asar := orFalse inpOptions.conceal
  icon := inpOptions.icon
  counter := orFalse inpOptions.counter
  width := orNum inpOptions.width 1280
  height := orNum inpOptions.height 800
  showMenuBar := orFalse inpOptions.showMenuBar
  userAgent := orFakeUserAgent env inpOptions.userAgent
  ignoreCertificate := orFalse inpOptions.ignoreCertificate
  insecure := orFalse inpOptions.insecure
  flashPluginDir := orNull inpOptions.flash
  inject := orNull inpOptions.inject
  fullScreen := orFalse inpOptions.fullScreen

/-- Lines 56..58: `if (inpOptions.honest) options.userAgent = null`. -/
def applyHonest (inpOptions : InpOptions) (options : Options) : Options :=
  if orFalse inpOptions.honest then { options with userAgent := .null } else options

/-- Lines 60..62. -/
def aliasWindows (options : Options) : Options :=
  if toLowerCase options.platform = utf16 "windows" then
    { options with platform := utf16 "win32" }
  else options

/-- Lines 64..66. -/
def aliasDarwin (options : Options) : Options :=
  if toLowerCase options.platform = utf16 "osx" ∨ toLowerCase options.platform = utf16 "mac" then
    { options with platform := utf16 "darwin" }
  else options

/-- The synchronous part of `optionsFactory`, lines 32..66. -/
def initialOptions (env : Env) (inpOptions : InpOptions) : Options :=
  aliasDarwin (aliasWindows (applyHonest inpOptions (defaults env inpOptions)))

/-- The test `if (options.icon)`. -/
def iconSet (icon : Option JSString) : Bool :=
  match icon with
  | some s => !(s.isEmpty)
  | none => false

/-- The test `options.name && options.name.length > 0`. -/
def nameSet (name : NameVal) : Bool :=
  match name with
  | .undefined => false
  | .str s => decide (s.length > 0)
  | .commanderFn => false

/-- A waterfall task: the error it passes to its callback (`none` for `callback()`)
and the state it leaves. -/
abbrev Task := State → Option JSString × State

/-- The first task, lines 69..83. -/
def iconTask (env : Env) : Task := fun st =>
  if iconSet st.options.icon then (none, st)
  else
    let called := st.log ++ [Event.inferIcon st.options.targetUrl st.options.platform]
    match env.inferIcon st.options.targetUrl st.options.platform with
    | .resolved pngPath =>
      (none, { options := { st.options with icon := some pngPath }, log := called })
    | .rejected error =>
      (none, { options := st.options, log := called ++ [Event.warnIcon error] })

/-- The second task, lines 84..104. -/
def titleTask (env : Env) : Task := fun st =>
  if nameSet st.options.name then (none, st)
  else
    let called := st.log ++ [Event.inferTitle st.options.targetUrl]
    let named : JSString × List Event :=
      match env.inferTitle st.options.targetUrl with
      | .failed _ => (DEFAULT_APP_NAME, called ++ [Event.warnName])
      | .succeeded pageTitle => (trim pageTitle, called)
    let name := if st.options.platform = utf16 "linux" then env.kebabCase named.1 else named.1
    (none, { options := { st.options with name := .str name }, log := named.2 })

/-- The control flow of `async.waterfall`: tasks run in order, the first error
ends the chain. -/
def waterfall : List Task → State → Option JSString × State
  | [], st => (none, st)
  | task :: rest, st =>
    match task st with
    | (some error, st1) => (some error, st1)
    | (none, st1) => waterfall rest st1

/-- The function `sanitizeFilename`, lines 110..114. -/
def sanitizeFilename (env : Env) (str : JSString) : JSString :=
  let cleaned := env.sanitizeFilenameLib str
  replaceFirst nonAscii cleaned

/-- The function `sanitizeOptions`, lines 116..119; `none` when the name is not a
string, which `sanitize-filename` answers with an exception. -/
def sanitizeOptions (env : Env) (options : Options) : Option Options :=
  match options.name with
  | .str s => some { options with name := .str (sanitizeFilename env s) }
  | _ => none

/-- The state when the waterfall hands over to its final callback (line 105). -/
def inferred (env : Env) (inpOptions : InpOptions) : Option JSString × State :=
  waterfall [iconTask env, titleTask env] { options := initialOptions env inpOptions, log := [] }

/-- The function `optionsFactory`, lines 30..108. -/
def optionsFactory (env : Env) (inpOptions : InpOptions) : Run :=
  let done := inferred env inpOptions
  match sanitizeOptions env done.2.options with
  | some options => { log := done.2.log, outcome := .called done.1 options }
  | none => { log := done.2.log, outcome := .threw }

/-! ## Reference models of the two npm libraries

`optionsFactory` is verified for every `Env`. The two definitions below only
serve to run the program on concrete inputs. -/

/-- The reserved characters `/ ? < > \ : * | "` of `sanitize-filename`. -/
def isIllegal (c : Nat) : Bool :=
  c = 0x2F || c = 0x3F || c = 0x3C || c = 0x3E || c = 0x5C || c = 0x3A || c = 0x2A
    || c = 0x7C || c = 0x22

/-- The control characters `0x00..0x1f` and `0x80..0x9f`. -/
def isControl (c : Nat) : Bool := decide (c ≤ 0x1F) || (decide (0x80 ≤ c) && decide (c ≤ 0x9F))

/-- ASCII case folding, for the `i` flag of the reserved-name pattern. -/
def asciiLower (c : Nat) : Nat := if 0x41 ≤ c ∧ c ≤ 0x5A then c + 0x20 else c

/-- The Windows reserved names `con prn aux nul com0..com9 lpt0..lpt9`, alone or
followed by a dot and anything on the same line. -/
def isWindowsReserved (s : JSString) : Bool :=
  let l := s.map asciiLower
  let three := l.take 3
  let named : Option JSString :=
    if three = utf16 "con" ∨ three = utf16 "prn" ∨ three = utf16 "aux" ∨ three = utf16 "nul" then
      some (l.drop 3)
    else if three = utf16 "com" ∨ three = utf16 "lpt" then
      match l.drop 3 with
      | d :: rest => if 0x30 ≤ d ∧ d ≤ 0x39 then some rest else none
      | [] => none
    else none
  match named with
  | some [] => true
  | some (c :: rest) =>
    c = 0x2E && rest.all fun x => !(x = 0x0A || x = 0x0D || x = 0x2028 || x = 0x2029)
  | none => false

/-- The number of UTF-8 bytes of the code point that starts at the head of the
string, and the number of code units it takes. -/
def utf8Step : JSString → Nat × Nat
  | [] => (0, 0)
  | [c] => (if c < 0x80 then 1 else if c < 0x800 then 2 else 3, 1)
  | c :: d :: _ =>
    if 0xD800 ≤ c ∧ c ≤ 0xDBFF ∧ 0xDC00 ≤ d ∧ d ≤ 0xDFFF then (4, 2)
    else (if c < 0x80 then 1 else if c < 0x800 then 2 else 3, 1)

/-- The longest prefix made of whole code points that fits in `budget` UTF-8 bytes. -/
def truncateUtf8 : Nat → JSString → Nat → JSString
  | 0, _, _ => []
  | _ + 1, [], _ => []
  | fuel + 1, c :: cs, budget =>
    let step := utf8Step (c :: cs)
    if step.1 ≤ budget then
      (c :: cs).take step.2 ++ truncateUtf8 fuel ((c :: cs).drop step.2) (budget - step.1)
    else []

/-- Modelled from the spec: the external sanitizer `sanitize-filename` (an npm
package, not under src/), which "strips characters illegal in file names for
the host filesystem". The model follows the documented behaviour of the
package: reserved and control characters are removed, a name made of dots only
or a Windows reserved name becomes empty, trailing dots and spaces are removed,
and the result is cut to 255 bytes of UTF-8. -/
def sanitizeFilenameLib (input : JSString) : JSString :=
  let s1 := input.filter fun c => !(isIllegal c)
  let s2 := s1.filter fun c => !(isControl c)
  let s3 := if s2.all (fun c => c = 0x2E) then [] else s2
  let s4 := if isWindowsReserved s3 then [] else s3
  let s5 := (s4.reverse.dropWhile fun c => c = 0x2E || c = 0x20).reverse
  truncateUtf8 (s5.length + 1) s5 255

/-- A code unit that separates words: every ASCII code unit that is neither a
letter nor a digit, and every white space code unit outside ASCII. -/
def isBreak (c : Nat) : Bool :=
  (decide (c < 0x80) &&
    !((decide (0x30 ≤ c) && decide (c ≤ 0x39)) || (decide (0x41 ≤ c) && decide (c ≤ 0x5A))
      || (decide (0x61 ≤ c) && decide (c ≤ 0x7A))))
    || isWhiteSpace c

/-- An upper-case ASCII letter. -/
def isUpper (c : Nat) : Bool := decide (0x41 ≤ c) && decide (c ≤ 0x5A)

/-- An ASCII digit. -/
def isDigit (c : Nat) : Bool := decide (0x30 ≤ c) && decide (c ≤ 0x39)

/-- A word character that is neither an upper-case ASCII letter nor a digit. -/
def isLowerLike (c : Nat) : Bool := !(isUpper c) && !(isDigit c)

/-- Whether a word ends between the adjacent code units `a` and `b`, `next` being
the code unit after `b`: at `aB`, at a letter next to a digit, and before the
last capital of a run of capitals that a lower-case letter follows (`XMLHttp`). -/
def wordEnds (a b : Nat) (next : Option Nat) : Bool :=
  (isLowerLike a && isUpper b) || (isDigit a != isDigit b)
    || (isUpper a && isUpper b &&
        match next with
        | some c => isLowerLike c
        | none => false)

/-- The maximal runs of code units that are not breaks (empty runs included). -/
def splitRuns : JSString → List JSString
  | [] => [[]]
  | c :: cs =>
    if isBreak c then [] :: splitRuns cs
    else
      match splitRuns cs with
      | w :: ws => (c :: w) :: ws
      | [] => [[c]]

/-- The words of one run. -/
def splitWords : JSString → List JSString
  | [] => []
  | [a] => [[a]]
  | a :: b :: rest =>
    if wordEnds a b rest.head? then [a] :: splitWords (b :: rest)
    else
      match splitWords (b :: rest) with
      | w :: ws => (a :: w) :: ws
      | [] => [[a]]

/-- The function `words` of lodash on the model alphabet. -/
def words (s : JSString) : List JSString :=
  ((splitRuns s).filter fun w => !(w.isEmpty)).flatMap splitWords

/-- Modelled from the spec: `_.kebabCase` of lodash (an npm package, not under
src/), the "transliteration of a string into lowercase words joined by
hyphens". The model is exact on the strings the concrete runs below give it:
words of ASCII letters separated by spaces, each word in lower case, in upper
case or capitalised (`APP`, `My Cool App`); there every version of lodash 4
lower-cases the words and joins them by `-`. Elsewhere it is an approximation
and no theorem depends on it: it does not transliterate (lodash turns `É` into
`e`), lower-cases only what `toLowerCase` above lower-cases, and splits every
digit from a letter (lodash keeps `1st` whole). The theorems on
`optionsFactory` hold for every `kebabCase`, which is a field of `Env`. -/
def kebabCase (s : JSString) : JSString :=
  (List.intersperse [0x2D] ((words s).map toLowerCase)).flatten

/-- Modelled from the spec: `normalizeUrl` (`./normalizeUrl`, not under src/)
"canonicalizes a target URL; behavior opaque to this core". The reference
environment returns the URL it is given, and the empty string for none. -/
def normalizeUrl (url : Option JSString) : JSString := url.getD []

/-- A concrete environment: a Linux host, the two library models, and the given
outcomes of the two inference collaborators. -/
def referenceEnv (icon : IconOutcome) (title : TitleOutcome) : Env where
  placeholderAppDir := utf16 "/usr/lib/node_modules/nativefier/app"
  packageVersion := utf16 "6.6.1"
  cwd := utf16 "/home/user"
  osPlatform := utf16 "linux"
  inferPlatform := utf16 "linux"
  inferArch := utf16 "x64"
  normalizeUrl := normalizeUrl
  inferIcon := fun _ _ => icon
  inferTitle := fun _ => title
  sanitizeFilenameLib := sanitizeFilenameLib
  kebabCase := kebabCase

/-- An input with only the target URL set. -/
def urlOnly (url : JSString) : InpOptions where
  name := .undefined
  targetUrl := some url
  platform := none
  arch := none
  electronVersion := none
  out := none
  overwrite := none
  conceal := none
  icon := none
  counter := none
  width := none
  height := none
  showMenuBar := none
  userAgent := none
  ignoreCertificate := none
  insecure := none
  flash := none
  inject := none
  fullScreen := none
  honest := none

/-- The inputs used for the concrete runs: the URL alone, a platform given. -/
def onPlatform (platform : JSString) : InpOptions :=
  { urlOnly (utf16 "http://example.com") with platform := some platform }

/-- Whether a logged call is a call of `inferIcon`. -/
def isInferIcon : Event → Bool
  | .inferIcon _ _ => true
  | _ => false

/-- Whether a logged call is a call of `inferTitle`. -/
def isInferTitle : Event → Bool
  | .inferTitle _ => true
  | _ => false

/-- The reference environment with another answer of `inferPlatform`. -/
def envOnHost (host : JSString) (icon : IconOutcome) (title : TitleOutcome) : Env :=
  { referenceEnv icon title with inferPlatform := host }

/-! ## Lemmas on the pipeline -/

theorem iconTask_error (env : Env) (st : State) : (iconTask env st).1 = none := by
  unfold iconTask
  split
  · rfl
  · dsimp only
    split <;> rfl

theorem titleTask_error (env : Env) (st : State) : (titleTask env st).1 = none := by
  unfold titleTask
  split <;> rfl

theorem waterfall_two (a b : Task) (st : State) (ha : (a st).1 = none)
    (hb : (b (a st).2).1 = none) : waterfall [a, b] st = (none, (b (a st).2).2) := by
  have h1 : a st = (none, (a st).2) := Prod.ext ha rfl
  have h2 : b (a st).2 = (none, (b (a st).2).2) := Prod.ext hb rfl
  simp only [waterfall]
  rw [h1]
  dsimp only
  rw [h2]

theorem inferred_eq (env : Env) (inpOptions : InpOptions) :
    inferred env inpOptions =
      (none, (titleTask env (iconTask env
        { options := initialOptions env inpOptions, log := [] }).2).2) :=
  waterfall_two _ _ _ (iconTask_error env _) (titleTask_error env _)

theorem iconTask_options (env : Env) (st : State) :
    (iconTask env st).2.options =
      { st.options with icon := (iconTask env st).2.options.icon } := by
  unfold iconTask
  split
  · rfl
  · dsimp only
    split <;> rfl

theorem titleTask_options (env : Env) (st : State) :
    (titleTask env st).2.options =
      { st.options with name := (titleTask env st).2.options.name } := by
  unfold titleTask
  split <;> rfl

theorem titleTask_name_str (env : Env) (st : State) :
    ∃ s, (titleTask env st).2.options.name = .str s := by
  unfold titleTask
  split
  · rename_i h
    cases hn : st.options.name with
    | undefined => simp [nameSet, hn] at h
    | str s => exact ⟨s, rfl⟩
    | commanderFn => simp [nameSet, hn] at h
  · exact ⟨_, rfl⟩

theorem optionsFactory_log (env : Env) (inpOptions : InpOptions) :
    (optionsFactory env inpOptions).log = (inferred env inpOptions).2.log := by
  unfold optionsFactory
  dsimp only
  split <;> rfl

theorem inferred_name_str (env : Env) (inpOptions : InpOptions) :
    ∃ s, (inferred env inpOptions).2.options.name = .str s := by
  rw [inferred_eq]
  exact titleTask_name_str env _

theorem optionsFactory_outcome (env : Env) (inpOptions : InpOptions) :
    ∃ pre, (inferred env inpOptions).2.options.name = .str pre ∧
      (optionsFactory env inpOptions).outcome =
        .called none { (inferred env inpOptions).2.options with
          name := .str (sanitizeFilename env pre) } := by
  obtain ⟨pre, hpre⟩ := inferred_name_str env inpOptions
  refine ⟨pre, hpre, ?_⟩
  have herr : (inferred env inpOptions).1 = none := by rw [inferred_eq]
  unfold optionsFactory sanitizeOptions
  dsimp only
  rw [hpre, herr]

theorem inferred_platform (env : Env) (inpOptions : InpOptions) :
    (inferred env inpOptions).2.options.platform = (initialOptions env inpOptions).platform := by
  rw [inferred_eq]
  dsimp only
  rw [titleTask_options, iconTask_options]

theorem inferred_userAgent (env : Env) (inpOptions : InpOptions) :
    (inferred env inpOptions).2.options.userAgent = (initialOptions env inpOptions).userAgent := by
  rw [inferred_eq]
  dsimp only
  rw [titleTask_options, iconTask_options]

theorem inferred_icon (env : Env) (inpOptions : InpOptions) :
    (inferred env inpOptions).2.options.icon =
      (iconTask env { options := initialOptions env inpOptions, log := [] }).2.options.icon := by
  rw [inferred_eq]
  dsimp only
  rw [titleTask_options]

theorem initialOptions_name (env : Env) (inpOptions : InpOptions) :
    (initialOptions env inpOptions).name = inpOptions.name := by
  unfold initialOptions aliasDarwin aliasWindows applyHonest defaults
  split <;> split <;> split <;> rfl

theorem initialOptions_icon (env : Env) (inpOptions : InpOptions) :
    (initialOptions env inpOptions).icon = inpOptions.icon := by
  unfold initialOptions aliasDarwin aliasWindows applyHonest defaults
  split <;> split <;> split <;> rfl

theorem initialOptions_targetUrl (env : Env) (inpOptions : InpOptions) :
    (initialOptions env inpOptions).targetUrl = env.normalizeUrl inpOptions.targetUrl := by
  unfold initialOptions aliasDarwin aliasWindows applyHonest defaults
  split <;> split <;> split <;> rfl

theorem iconTask_name (env : Env) (st : State) :
    (iconTask env st).2.options.name = st.options.name := by
  rw [iconTask_options]

theorem iconTask_targetUrl (env : Env) (st : State) :
    (iconTask env st).2.options.targetUrl = st.options.targetUrl := by
  rw [iconTask_options]

theorem iconTask_platform (env : Env) (st : State) :
    (iconTask env st).2.options.platform = st.options.platform := by
  rw [iconTask_options]

/-! ## The synchronous part -/

theorem initialOptions_platform (env : Env) (inpOptions : InpOptions) :
    (initialOptions env inpOptions).platform =
      let p := orStr inpOptions.platform env.inferPlatform
      let q := if toLowerCase p = utf16 "windows" then utf16 "win32" else p
      if toLowerCase q = utf16 "osx" ∨ toLowerCase q = utf16 "mac" then utf16 "darwin" else q := by
  unfold initialOptions aliasDarwin aliasWindows applyHonest defaults
  dsimp only
  split <;> split <;> split <;> simp_all

theorem initialOptions_userAgent (env : Env) (inpOptions : InpOptions) :
    (initialOptions env inpOptions).userAgent =
      if orFalse inpOptions.honest then .null
      else orFakeUserAgent env inpOptions.userAgent := by
  unfold initialOptions aliasDarwin aliasWindows applyHonest defaults
  split <;> split <;> split <;> simp_all

theorem orStr_of_lower_ne_nil (p d : JSString) (h : toLowerCase p ≠ []) :
    orStr (some p) d = p := by
  unfold orStr
  dsimp only
  split
  · rename_i hp
    subst hp
    exact absurd rfl h
  · rfl

/-- C1: with the platform `Windows`, icon inference failing and the inferred title
`Café β App`, the name handed to the callback is `Caf β App`: only the first
code unit outside 0x00..0x7F was removed, and the code unit 0x3B2 is left. -/
theorem sanitize_leaves_second_non_ascii :
    ∃ o, (optionsFactory (referenceEnv (.rejected []) (.succeeded (utf16 "Café β App")))
            (onPlatform (utf16 "Windows"))).outcome = .called none o ∧
      o.name = .str (utf16 "Caf β App") ∧ 0x3B2 ∈ utf16 "Caf β App" ∧ ¬ (0x3B2 ≤ 0x7F) :=
  ⟨_, rfl, rfl, by decide, by decide⟩

/-- C2, as stated, fails: on the platform `linux`, with the name unset and title
inference reporting an error, the name is `app`, not `sanitizeFilename("APP")`,
which is `APP`. -/
theorem linux_fallback_is_app :
    (onPlatform (utf16 "linux")).name = .undefined ∧
    (referenceEnv (.rejected []) (.failed (utf16 "ENOTFOUND"))).inferTitle
        (utf16 "http://example.com") = .failed (utf16 "ENOTFOUND") ∧
    sanitizeFilename (referenceEnv (.rejected []) (.failed (utf16 "ENOTFOUND")))
        (utf16 "APP") = utf16 "APP" ∧
    ∃ o, (optionsFactory (referenceEnv (.rejected []) (.failed (utf16 "ENOTFOUND")))
            (onPlatform (utf16 "linux"))).outcome = .called none o ∧
      o.name = .str (utf16 "app") ∧
      o.name ≠ .str (sanitizeFilename (referenceEnv (.rejected []) (.failed (utf16 "ENOTFOUND")))
        (utf16 "APP")) :=
  ⟨rfl, rfl, by decide, _, rfl, rfl, by decide⟩

/-- C2, amended: for every input whose name is unset and for which title inference
reports an error, the callback receives no error and a configuration whose name
is `sanitizeFilename(kebabCase("APP"))` when its platform is `linux` and
`sanitizeFilename("APP")` on every other platform. -/
theorem fallback_name (env : Env) (inpOptions : InpOptions) (error : JSString)
    (hname : inpOptions.name = .undefined)
    (htitle : env.inferTitle (env.normalizeUrl inpOptions.targetUrl) = .failed error) :
    ∃ o, (optionsFactory env inpOptions).outcome = .called none o ∧
      o.name = .str (sanitizeFilename env
        (if o.platform = utf16 "linux" then env.kebabCase DEFAULT_APP_NAME
         else DEFAULT_APP_NAME)) := by
  obtain ⟨pre, hpre, hout⟩ := optionsFactory_outcome env inpOptions
  refine ⟨_, hout, ?_⟩
  dsimp only
  rw [inferred_platform]
  rw [inferred_eq] at hpre
  dsimp only at hpre
  unfold titleTask at hpre
  rw [iconTask_name, iconTask_targetUrl, iconTask_platform, initialOptions_name,
    initialOptions_targetUrl, hname, htitle] at hpre
  simp only [nameSet, Bool.false_eq_true, if_false] at hpre
  injection hpre with hpre
  rw [← hpre]

/-- The amended C2 on a concrete run: platform `Windows`, title inference failing. -/
theorem fallback_name_witness :
    (onPlatform (utf16 "Windows")).name = .undefined ∧
    ∃ o, (optionsFactory (referenceEnv (.rejected []) (.failed (utf16 "ENOTFOUND")))
            (onPlatform (utf16 "Windows"))).outcome = .called none o ∧
      o.name = .str (sanitizeFilename (referenceEnv (.rejected []) (.failed (utf16 "ENOTFOUND")))
        (if o.platform = utf16 "linux" then
          (referenceEnv (.rejected []) (.failed (utf16 "ENOTFOUND"))).kebabCase DEFAULT_APP_NAME
         else DEFAULT_APP_NAME)) :=
  ⟨rfl, fallback_name (referenceEnv (.rejected []) (.failed (utf16 "ENOTFOUND")))
    (onPlatform (utf16 "Windows")) (utf16 "ENOTFOUND") rfl rfl⟩

/-! ## Sanitisation of the name -/

theorem replaceFirst_nonAscii_keeps_ascii (l : JSString) (c : Nat) (hc : c ∈ l)
    (hascii : c ≤ 0x7F) : c ∈ replaceFirst nonAscii l := by
  induction l with
  | nil => exact absurd hc (List.not_mem_nil c)
  | cons a rest ih =>
    unfold replaceFirst
    by_cases ha : nonAscii a = true
    · rw [if_pos ha]
      rcases List.mem_cons.mp hc with h | h
      · subst h
        simp [nonAscii, hascii] at ha
      · exact h
    · rw [if_neg ha]
      rcases List.mem_cons.mp hc with h | h
      · exact h ▸ List.mem_cons_self _ _
      · exact List.mem_cons_of_mem _ (ih h)

/-- C3, as stated, fails: on the platform `darwin`, with the name unset and title
inference returning the empty title, the callback receives the empty name. -/
theorem empty_title_gives_empty_name :
    ∃ o, (optionsFactory (referenceEnv (.rejected []) (.succeeded []))
            (onPlatform (utf16 "darwin"))).outcome = .called none o ∧
      o.name = .str [] :=
  ⟨_, rfl, rfl⟩

/-- C3, amended: for every input and every outcome of the inference stages the
name of the returned configuration is a string; it is non-empty whenever the
output of the external sanitizer on the name before sanitisation contains an
ASCII code unit, and it is empty whenever that output is empty. -/
theorem name_nonempty_of_ascii (env : Env) (inpOptions : InpOptions) :
    ∃ pre s o, (inferred env inpOptions).2.options.name = .str pre ∧
      (optionsFactory env inpOptions).outcome = .called none o ∧ o.name = .str s ∧
      ((∃ c ∈ env.sanitizeFilenameLib pre, c ≤ 0x7F) → s ≠ []) ∧
      (env.sanitizeFilenameLib pre = [] → s = []) := by
  obtain ⟨pre, hpre, hout⟩ := optionsFactory_outcome env inpOptions
  refine ⟨pre, _, _, hpre, hout, rfl, ?_, ?_⟩
  · rintro ⟨c, hc, hascii⟩
    exact List.ne_nil_of_mem (replaceFirst_nonAscii_keeps_ascii _ c hc hascii)
  · intro hempty
    unfold sanitizeFilename
    dsimp only
    rw [hempty]
    rfl

/-- The amended C3 on two concrete runs: on `Windows` with title inference failing
the sanitizer output `APP` has an ASCII code unit and the name is not empty; on
`darwin` with the empty title the sanitizer output is empty and so is the name. -/
theorem name_nonempty_of_ascii_witness :
    (∃ o, (optionsFactory (referenceEnv (.rejected []) (.failed (utf16 "ENOTFOUND")))
            (onPlatform (utf16 "Windows"))).outcome = .called none o ∧ o.name ≠ .str []) ∧
    (∃ o, (optionsFactory (referenceEnv (.rejected []) (.succeeded []))
            (onPlatform (utf16 "darwin"))).outcome = .called none o ∧ o.name = .str []) := by
  constructor
  · obtain ⟨pre, s, o, hpre, hout, hs, hpos, -⟩ := name_nonempty_of_ascii
      (referenceEnv (.rejected []) (.failed (utf16 "ENOTFOUND"))) (onPlatform (utf16 "Windows"))
    have hp : utf16 "APP" = pre := NameVal.str.inj hpre
    refine ⟨o, hout, ?_⟩
    rw [hs]
    intro h
    exact hpos ⟨0x41, by rw [← hp]; decide, by decide⟩ (NameVal.str.inj h)
  · obtain ⟨pre, s, o, hpre, hout, hs, -, hzero⟩ := name_nonempty_of_ascii
      (referenceEnv (.rejected []) (.succeeded [])) (onPlatform (utf16 "darwin"))
    have hp : [] = pre := NameVal.str.inj hpre
    refine ⟨o, hout, ?_⟩
    rw [hs, hzero (by rw [← hp]; rfl)]

theorem toLowerCase_ne_nil_of_eq (p q : JSString) (h : toLowerCase p = q) (hq : q ≠ []) :
    toLowerCase p ≠ [] := by
  rw [h]
  exact hq

/-- C4: for every input whose platform lower-cases to `windows` the platform of
the returned configuration is `win32`, and for every input whose platform
lower-cases to `osx` or to `mac` it is `darwin`. -/
theorem platform_alias (env : Env) (inpOptions : InpOptions) (p : JSString)
    (hp : inpOptions.platform = some p) :
    (toLowerCase p = utf16 "windows" →
      ∃ o, (optionsFactory env inpOptions).outcome = .called none o ∧
        o.platform = utf16 "win32") ∧
    (toLowerCase p = utf16 "osx" ∨ toLowerCase p = utf16 "mac" →
      ∃ o, (optionsFactory env inpOptions).outcome = .called none o ∧
        o.platform = utf16 "darwin") := by
  obtain ⟨pre, -, hout⟩ := optionsFactory_outcome env inpOptions
  constructor
  · intro h
    refine ⟨_, hout, ?_⟩
    dsimp only
    rw [inferred_platform, initialOptions_platform, hp,
      orStr_of_lower_ne_nil p _ (toLowerCase_ne_nil_of_eq p _ h (by decide))]
    dsimp only
    rw [if_pos h]
    decide
  · intro h
    refine ⟨_, hout, ?_⟩
    dsimp only
    have hne : toLowerCase p ≠ [] := by
      rcases h with h | h
      · exact toLowerCase_ne_nil_of_eq p _ h (by decide)
      · exact toLowerCase_ne_nil_of_eq p _ h (by decide)
    have hw : toLowerCase p ≠ utf16 "windows" := by
      rcases h with h | h <;> rw [h] <;> decide
    rw [inferred_platform, initialOptions_platform, hp, orStr_of_lower_ne_nil p _ hne]
    dsimp only
    rw [if_neg hw, if_pos h]

/-- C4 on two concrete runs: the platforms `WINDOWS` and `Mac`. -/
theorem platform_alias_witness :
    (toLowerCase (utf16 "WINDOWS") = utf16 "windows" ∧
      ∃ o, (optionsFactory (referenceEnv (.rejected []) (.succeeded (utf16 "Example Site")))
              (onPlatform (utf16 "WINDOWS"))).outcome = .called none o ∧
        o.platform = utf16 "win32") ∧
    (toLowerCase (utf16 "Mac") = utf16 "mac" ∧
      ∃ o, (optionsFactory (referenceEnv (.rejected []) (.succeeded (utf16 "Example Site")))
              (onPlatform (utf16 "Mac"))).outcome = .called none o ∧
        o.platform = utf16 "darwin") :=
  ⟨⟨by decide, (platform_alias (referenceEnv (.rejected []) (.succeeded (utf16 "Example Site")))
      (onPlatform (utf16 "WINDOWS")) (utf16 "WINDOWS") rfl).1 (by decide)⟩,
   ⟨by decide, (platform_alias (referenceEnv (.rejected []) (.succeeded (utf16 "Example Site")))
      (onPlatform (utf16 "Mac")) (utf16 "Mac") rfl).2 (Or.inr (by decide))⟩⟩

/-- C5: for every input with the honest flag set, whatever user agent the caller
supplied and whatever the host, the userAgent of the returned configuration is
null. -/
theorem honest_userAgent_null (env : Env) (inpOptions : InpOptions)
    (hhonest : inpOptions.honest = some true) :
    ∃ o, (optionsFactory env inpOptions).outcome = .called none o ∧ o.userAgent = .null := by
  obtain ⟨pre, -, hout⟩ := optionsFactory_outcome env inpOptions
  refine ⟨_, hout, ?_⟩
  dsimp only
  rw [inferred_userAgent, initialOptions_userAgent, hhonest]
  rfl

/-- C5 on a concrete run: a user agent is supplied together with the honest flag. -/
theorem honest_userAgent_null_witness :
    ∃ o, (optionsFactory (referenceEnv (.rejected []) (.succeeded (utf16 "Example Site")))
            { onPlatform (utf16 "Windows") with
              userAgent := some (utf16 "Mozilla/5.0"), honest := some true }).outcome
          = .called none o ∧ o.userAgent = .null :=
  honest_userAgent_null (referenceEnv (.rejected []) (.succeeded (utf16 "Example Site")))
    { onPlatform (utf16 "Windows") with
      userAgent := some (utf16 "Mozilla/5.0"), honest := some true } rfl

/-- C6: for every input and every outcome of the two inference collaborators, the
completion callback is called, with an absent error and a configuration. -/
theorem callback_without_error (env : Env) (inpOptions : InpOptions) :
    ∃ o, (optionsFactory env inpOptions).outcome = .called none o := by
  obtain ⟨pre, -, hout⟩ := optionsFactory_outcome env inpOptions
  exact ⟨_, hout⟩

/-! ## The log of collaborator calls -/

theorem iconTask_of_set (env : Env) (st : State) (h : iconSet st.options.icon = true) :
    iconTask env st = (none, st) := by
  unfold iconTask
  rw [if_pos h]

theorem iconTask_log_of_unset (env : Env) (st : State) (h : iconSet st.options.icon = false) :
    ∃ tail, (iconTask env st).2.log =
        st.log ++ Event.inferIcon st.options.targetUrl st.options.platform :: tail ∧
      tail.countP isInferIcon = 0 ∧ tail.countP isInferTitle = 0 := by
  unfold iconTask
  rw [if_neg (by simp [h])]
  dsimp only
  split
  · exact ⟨[], by simp, rfl, rfl⟩
  · rename_i error _
    exact ⟨[Event.warnIcon error], by simp, rfl, rfl⟩

theorem titleTask_of_set (env : Env) (st : State) (h : nameSet st.options.name = true) :
    titleTask env st = (none, st) := by
  unfold titleTask
  rw [if_pos h]

theorem titleTask_log_of_unset (env : Env) (st : State) (h : nameSet st.options.name = false) :
    ∃ tail, (titleTask env st).2.log = st.log ++ Event.inferTitle st.options.targetUrl :: tail ∧
      tail.countP isInferIcon = 0 ∧ tail.countP isInferTitle = 0 := by
  unfold titleTask
  rw [if_neg (by simp [h])]
  dsimp only
  split
  · exact ⟨[Event.warnName], by simp, rfl, rfl⟩
  · exact ⟨[], by simp, rfl, rfl⟩

theorem iconTask_log_no_title (env : Env) (st : State) :
    (iconTask env st).2.log.countP isInferTitle = st.log.countP isInferTitle := by
  cases h : iconSet st.options.icon with
  | true => rw [iconTask_of_set env st h]
  | false =>
    obtain ⟨tail, hlog, -, ht⟩ := iconTask_log_of_unset env st h
    rw [hlog, List.countP_append, List.countP_cons, ht]
    simp [isInferTitle]

theorem titleTask_log_no_icon (env : Env) (st : State) :
    (titleTask env st).2.log.countP isInferIcon = st.log.countP isInferIcon := by
  cases h : nameSet st.options.name with
  | true => rw [titleTask_of_set env st h]
  | false =>
    obtain ⟨tail, hlog, hi, -⟩ := titleTask_log_of_unset env st h
    rw [hlog, List.countP_append, List.countP_cons, hi]
    simp [isInferIcon]

theorem not_mem_of_countP_zero (log : List Event) (p : Event → Bool) (e : Event)
    (h : log.countP p = 0) (he : p e = true) : e ∉ log := by
  intro hmem
  have := List.countP_pos_iff.mpr ⟨e, hmem, he⟩
  omega

/-- C7, as stated, fails: the caller supplies the empty string as icon, icon
inference resolves with a path, and `inferIcon` is invoked and the icon of the
returned configuration is the inferred path, not the supplied value. -/
theorem empty_icon_is_inferred :
    ({ onPlatform (utf16 "Windows") with icon := some [] } : InpOptions).icon = some [] ∧
    Event.inferIcon (utf16 "http://example.com") (utf16 "win32") ∈
      (optionsFactory (referenceEnv (.resolved (utf16 "/tmp/icon.png"))
          (.succeeded (utf16 "Example Site")))
        { onPlatform (utf16 "Windows") with icon := some [] }).log ∧
    ∃ o, (optionsFactory (referenceEnv (.resolved (utf16 "/tmp/icon.png"))
            (.succeeded (utf16 "Example Site")))
          { onPlatform (utf16 "Windows") with icon := some [] }).outcome = .called none o ∧
      o.icon = some (utf16 "/tmp/icon.png") ∧ o.icon ≠ some [] :=
  ⟨rfl, by decide, _, rfl, rfl, by decide⟩

/-- C7, amended: for every input that supplies a non-empty icon, `inferIcon` is
never invoked and the icon of the returned configuration is the supplied icon. -/
theorem supplied_icon_kept (env : Env) (inpOptions : InpOptions) (icon : JSString)
    (hicon : inpOptions.icon = some icon) (hne : icon ≠ []) :
    (∀ url platform, Event.inferIcon url platform ∉ (optionsFactory env inpOptions).log) ∧
    ∃ o, (optionsFactory env inpOptions).outcome = .called none o ∧ o.icon = some icon := by
  have hset : iconSet (initialOptions env inpOptions).icon = true := by
    rw [initialOptions_icon, hicon]
    cases icon with
    | nil => exact absurd rfl hne
    | cons c cs => rfl
  constructor
  · intro url platform
    refine not_mem_of_countP_zero _ isInferIcon (Event.inferIcon url platform) ?_ rfl
    rw [optionsFactory_log, inferred_eq]
    dsimp only
    rw [titleTask_log_no_icon, iconTask_of_set env _ hset]
    rfl
  · obtain ⟨pre, -, hout⟩ := optionsFactory_outcome env inpOptions
    refine ⟨_, hout, ?_⟩
    dsimp only
    rw [inferred_icon, iconTask_of_set env _ hset]
    dsimp only
    rw [initialOptions_icon, hicon]

/-- The amended C7 on a concrete run: the icon `icon.png` is supplied. -/
theorem supplied_icon_kept_witness :
    utf16 "icon.png" ≠ [] ∧
    (∀ url platform, Event.inferIcon url platform ∉
      (optionsFactory (referenceEnv (.resolved (utf16 "/tmp/icon.png"))
          (.succeeded (utf16 "Example Site")))
        { onPlatform (utf16 "Windows") with icon := some (utf16 "icon.png") }).log) ∧
    ∃ o, (optionsFactory (referenceEnv (.resolved (utf16 "/tmp/icon.png"))
            (.succeeded (utf16 "Example Site")))
          { onPlatform (utf16 "Windows") with icon := some (utf16 "icon.png") }).outcome
        = .called none o ∧ o.icon = some (utf16 "icon.png") :=
  ⟨by decide, supplied_icon_kept (referenceEnv (.resolved (utf16 "/tmp/icon.png"))
      (.succeeded (utf16 "Example Site")))
    { onPlatform (utf16 "Windows") with icon := some (utf16 "icon.png") } (utf16 "icon.png")
    rfl (by decide)⟩

/-- C8: for every input whose name is a non-empty string, `inferTitle` is never
invoked. -/
theorem supplied_name_skips_inferTitle (env : Env) (inpOptions : InpOptions) (name : JSString)
    (hname : inpOptions.name = .str name) (hne : name ≠ []) :
    ∀ url, Event.inferTitle url ∉ (optionsFactory env inpOptions).log := by
  intro url
  refine not_mem_of_countP_zero _ isInferTitle (Event.inferTitle url) ?_ rfl
  have hset : nameSet (iconTask env
      { options := initialOptions env inpOptions, log := [] }).2.options.name = true := by
    rw [iconTask_name]
    dsimp only
    rw [initialOptions_name, hname]
    cases name with
    | nil => exact absurd rfl hne
    | cons c cs => simp [nameSet]
  rw [optionsFactory_log, inferred_eq]
  dsimp only
  rw [titleTask_of_set env _ hset]
  dsimp only
  rw [iconTask_log_no_title]
  rfl

/-- C8 on a concrete run: the name `My App` is supplied. -/
theorem supplied_name_skips_inferTitle_witness :
    utf16 "My App" ≠ [] ∧
    ∀ url, Event.inferTitle url ∉
      (optionsFactory (referenceEnv (.rejected []) (.succeeded (utf16 "Example Site")))
        { onPlatform (utf16 "linux") with name := .str (utf16 "My App") }).log :=
  ⟨by decide, supplied_name_skips_inferTitle
    (referenceEnv (.rejected []) (.succeeded (utf16 "Example Site")))
    { onPlatform (utf16 "linux") with name := .str (utf16 "My App") } (utf16 "My App")
    rfl (by decide)⟩

/-! ## The name on linux -/

/-- C9: for every input with the name unset whose platform resolves to `linux`, and
every title returned by title inference, the name before the final sanitisation
is `kebabCase(trim(title))`, whatever `kebabCase` returns; so the name is free
of every kind of code unit (a space, an upper-case letter) that the answer of
`kebabCase` is free of. -/
theorem linux_name_is_kebab (env : Env) (inpOptions : InpOptions) (title : JSString)
    (hname : inpOptions.name = .undefined)
    (hlinux : (initialOptions env inpOptions).platform = utf16 "linux")
    (htitle : env.inferTitle (env.normalizeUrl inpOptions.targetUrl) = .succeeded title) :
    (inferred env inpOptions).2.options.name = .str (env.kebabCase (trim title)) ∧
    ∀ forbidden : Nat → Prop, (∀ c ∈ env.kebabCase (trim title), ¬ forbidden c) →
      ∃ name, (inferred env inpOptions).2.options.name = .str name ∧
        ∀ c ∈ name, ¬ forbidden c := by
  have heq : (inferred env inpOptions).2.options.name = .str (env.kebabCase (trim title)) := by
    rw [inferred_eq]
    dsimp only
    unfold titleTask
    rw [iconTask_name, iconTask_targetUrl, iconTask_platform, initialOptions_name,
      initialOptions_targetUrl, hname, htitle, hlinux]
    simp only [nameSet, Bool.false_eq_true, if_false, if_true]
  exact ⟨heq, fun _ hfree => ⟨_, heq, hfree⟩⟩

/-- C9 on a concrete run: on `linux` the title `My Cool App`, returned with white
space around it, gives the name `my-cool-app` before sanitisation, in which
no code unit is white space or an upper-case letter. -/
theorem linux_name_is_kebab_witness :
    (onPlatform (utf16 "linux")).name = .undefined ∧
    (initialOptions (referenceEnv (.rejected []) (.succeeded (utf16 "  My Cool App ")))
      (onPlatform (utf16 "linux"))).platform = utf16 "linux" ∧
    (inferred (referenceEnv (.rejected []) (.succeeded (utf16 "  My Cool App ")))
      (onPlatform (utf16 "linux"))).2.options.name = .str (utf16 "my-cool-app") ∧
    ∃ name, (inferred (referenceEnv (.rejected []) (.succeeded (utf16 "  My Cool App ")))
        (onPlatform (utf16 "linux"))).2.options.name = .str name ∧
      ∀ c ∈ name, ¬ (isWhiteSpace c = true ∨ (0x41 ≤ c ∧ c ≤ 0x5A)) :=
  ⟨rfl, rfl,
    (linux_name_is_kebab (referenceEnv (.rejected []) (.succeeded (utf16 "  My Cool App ")))
      (onPlatform (utf16 "linux")) (utf16 "  My Cool App ") rfl rfl rfl).1,
    (linux_name_is_kebab (referenceEnv (.rejected []) (.succeeded (utf16 "  My Cool App ")))
      (onPlatform (utf16 "linux")) (utf16 "  My Cool App ") rfl rfl rfl).2
      (fun c => isWhiteSpace c = true ∨ (0x41 ≤ c ∧ c ≤ 0x5A)) (by decide)⟩

/-- C10: for every input with both icon and name unset, and whatever the two
inference collaborators answer, `inferIcon` and `inferTitle` are each invoked
exactly once. -/
theorem each_inference_once (env : Env) (inpOptions : InpOptions)
    (hicon : inpOptions.icon = none) (hname : inpOptions.name = .undefined) :
    (optionsFactory env inpOptions).log.countP isInferIcon = 1 ∧
    (optionsFactory env inpOptions).log.countP isInferTitle = 1 := by
  have hi : iconSet ({ options := initialOptions env inpOptions, log := [] } : State).options.icon
      = false := by
    dsimp only
    rw [initialOptions_icon, hicon]
    rfl
  have hn : nameSet (iconTask env
      { options := initialOptions env inpOptions, log := [] }).2.options.name = false := by
    rw [iconTask_name]
    dsimp only
    rw [initialOptions_name, hname]
    rfl
  obtain ⟨t1, hlog1, hi1, ht1⟩ := iconTask_log_of_unset env _ hi
  obtain ⟨t2, hlog2, hi2, ht2⟩ := titleTask_log_of_unset env _ hn
  rw [optionsFactory_log, inferred_eq]
  dsimp only
  rw [hlog2, hlog1]
  simp [List.countP_append, List.countP_cons, hi1, ht1, hi2, ht2, isInferIcon, isInferTitle]

/-- C10 on a concrete run: both inferences fail and each was tried once. -/
theorem each_inference_once_witness :
    (optionsFactory (referenceEnv (.rejected (utf16 "no icon")) (.failed (utf16 "ENOTFOUND")))
        (onPlatform (utf16 "Windows"))).log.countP isInferIcon = 1 ∧
    (optionsFactory (referenceEnv (.rejected (utf16 "no icon")) (.failed (utf16 "ENOTFOUND")))
        (onPlatform (utf16 "Windows"))).log.countP isInferTitle = 1 :=
  each_inference_once (referenceEnv (.rejected (utf16 "no icon")) (.failed (utf16 "ENOTFOUND")))
    (onPlatform (utf16 "Windows")) rfl rfl

/-! ## What the asynchronous part leaves alone -/

theorem inferred_options_frame (env : Env) (inpOptions : InpOptions) :
    (inferred env inpOptions).2.options =
      { initialOptions env inpOptions with
        icon := (inferred env inpOptions).2.options.icon
        name := (inferred env inpOptions).2.options.name } := by
  rw [inferred_eq]
  dsimp only
  have h1 := titleTask_options env
    (iconTask env { options := initialOptions env inpOptions, log := [] }).2
  have h2 := iconTask_options env { options := initialOptions env inpOptions, log := [] }
  dsimp only at h2
  generalize (titleTask env
    (iconTask env { options := initialOptions env inpOptions, log := [] }).2).2.options = T at h1 ⊢
  generalize (iconTask env { options := initialOptions env inpOptions, log := [] }).2.options = S
    at h1 h2
  rw [h1, h2]

theorem optionsFactory_frame (env : Env) (inpOptions : InpOptions) :
    ∃ o pre, (optionsFactory env inpOptions).outcome = .called none o ∧
      o = { initialOptions env inpOptions with icon := o.icon, name := o.name } ∧
      o.icon = (inferred env inpOptions).2.options.icon ∧
      (inferred env inpOptions).2.options.name = .str pre ∧
      o.name = .str (sanitizeFilename env pre) := by
  obtain ⟨pre, hpre, hout⟩ := optionsFactory_outcome env inpOptions
  refine ⟨_, pre, hout, ?_, rfl, hpre, rfl⟩
  dsimp only
  rw [inferred_options_frame]

theorem initialOptions_width (env : Env) (inpOptions : InpOptions) :
    (initialOptions env inpOptions).width = orNum inpOptions.width 1280 := by
  unfold initialOptions aliasDarwin aliasWindows applyHonest defaults
  split <;> split <;> split <;> rfl

theorem initialOptions_height (env : Env) (inpOptions : InpOptions) :
    (initialOptions env inpOptions).height = orNum inpOptions.height 800 := by
  unfold initialOptions aliasDarwin aliasWindows applyHonest defaults
  split <;> split <;> split <;> rfl

theorem initialOptions_platform_of_not_alias (env : Env) (inpOptions : InpOptions)
    (hw : toLowerCase (orStr inpOptions.platform env.inferPlatform) ≠ utf16 "windows")
    (ho : toLowerCase (orStr inpOptions.platform env.inferPlatform) ≠ utf16 "osx")
    (hm : toLowerCase (orStr inpOptions.platform env.inferPlatform) ≠ utf16 "mac") :
    (initialOptions env inpOptions).platform = orStr inpOptions.platform env.inferPlatform := by
  rw [initialOptions_platform]
  dsimp only
  rw [if_neg hw, if_neg (by simp [ho, hm])]

theorem initialOptions_platform_not_alias (env : Env) (inpOptions : InpOptions) :
    toLowerCase (initialOptions env inpOptions).platform ≠ utf16 "windows" ∧
    toLowerCase (initialOptions env inpOptions).platform ≠ utf16 "osx" ∧
    toLowerCase (initialOptions env inpOptions).platform ≠ utf16 "mac" := by
  rw [initialOptions_platform]
  dsimp only
  by_cases hw : toLowerCase (orStr inpOptions.platform env.inferPlatform) = utf16 "windows"
  · rw [if_pos hw, if_neg (by decide)]
    decide
  · rw [if_neg hw]
    by_cases hd : toLowerCase (orStr inpOptions.platform env.inferPlatform) = utf16 "osx" ∨
        toLowerCase (orStr inpOptions.platform env.inferPlatform) = utf16 "mac"
    · rw [if_pos hd]
      decide
    · rw [if_neg hd]
      exact ⟨hw, fun h => hd (Or.inl h), fun h => hd (Or.inr h)⟩

theorem alias_fixed_of_not_alias (options : Options)
    (hw : toLowerCase options.platform ≠ utf16 "windows")
    (ho : toLowerCase options.platform ≠ utf16 "osx")
    (hm : toLowerCase options.platform ≠ utf16 "mac") :
    aliasDarwin (aliasWindows options) = options := by
  have h1 : aliasWindows options = options := by
    unfold aliasWindows
    rw [if_neg hw]
  rw [h1]
  unfold aliasDarwin
  rw [if_neg (by simp [ho, hm])]

/-! ## The platform -/

/-- C11: for every input with the platform unset, the platform resolved at line 36
is the value returned by `inferPlatform`, whatever string that is, and the
platform of the returned configuration equals that value for every value the
host inference returns: an identifier of the host such as `darwin`, `win32` or
`linux`, which lower-cased is none of the aliases `windows`, `osx`, `mac`. -/
theorem host_platform_kept (env : Env) (inpOptions : InpOptions)
    (hp : inpOptions.platform = none) :
    (defaults env inpOptions).platform = env.inferPlatform ∧
    (toLowerCase env.inferPlatform ≠ utf16 "windows" →
      toLowerCase env.inferPlatform ≠ utf16 "osx" →
      toLowerCase env.inferPlatform ≠ utf16 "mac" →
      ∃ o, (optionsFactory env inpOptions).outcome = .called none o ∧
        o.platform = env.inferPlatform) := by
  have horStr : orStr inpOptions.platform env.inferPlatform = env.inferPlatform := by
    rw [hp]
    rfl
  refine ⟨horStr, ?_⟩
  intro hw ho hm
  obtain ⟨o, pre, hout, hframe, -⟩ := optionsFactory_frame env inpOptions
  refine ⟨o, hout, ?_⟩
  rw [hframe]
  dsimp only
  rw [initialOptions_platform_of_not_alias env inpOptions (by rwa [horStr]) (by rwa [horStr])
    (by rwa [horStr]), horStr]

/-- C11 on three concrete runs: the host inference answers `darwin`, `win32` and
`linux`. -/
theorem host_platform_kept_witness :
    (urlOnly (utf16 "http://example.com")).platform = none ∧
    (∃ o, (optionsFactory (envOnHost (utf16 "darwin") (.rejected []) (.succeeded (utf16 "Example")))
            (urlOnly (utf16 "http://example.com"))).outcome = .called none o ∧
      o.platform = utf16 "darwin") ∧
    (∃ o, (optionsFactory (envOnHost (utf16 "win32") (.rejected []) (.succeeded (utf16 "Example")))
            (urlOnly (utf16 "http://example.com"))).outcome = .called none o ∧
      o.platform = utf16 "win32") ∧
    (∃ o, (optionsFactory (envOnHost (utf16 "linux") (.rejected []) (.succeeded (utf16 "Example")))
            (urlOnly (utf16 "http://example.com"))).outcome = .called none o ∧
      o.platform = utf16 "linux") :=
  ⟨rfl,
    (host_platform_kept (envOnHost (utf16 "darwin") (.rejected []) (.succeeded (utf16 "Example")))
      (urlOnly (utf16 "http://example.com")) rfl).2 (by decide) (by decide) (by decide),
    (host_platform_kept (envOnHost (utf16 "win32") (.rejected []) (.succeeded (utf16 "Example")))
      (urlOnly (utf16 "http://example.com")) rfl).2 (by decide) (by decide) (by decide),
    (host_platform_kept (envOnHost (utf16 "linux") (.rejected []) (.succeeded (utf16 "Example")))
      (urlOnly (utf16 "http://example.com")) rfl).2 (by decide) (by decide) (by decide)⟩

/-- C12: for every input whose supplied platform is a non-empty string that,
lower-cased, is none of `windows`, `osx`, `mac`, the platform of the returned
configuration is the supplied string, code unit by code unit. -/
theorem supplied_platform_kept (env : Env) (inpOptions : InpOptions) (p : JSString)
    (hp : inpOptions.platform = some p) (hne : p ≠ [])
    (hw : toLowerCase p ≠ utf16 "windows")
    (ho : toLowerCase p ≠ utf16 "osx")
    (hm : toLowerCase p ≠ utf16 "mac") :
    ∃ o, (optionsFactory env inpOptions).outcome = .called none o ∧ o.platform = p := by
  obtain ⟨o, pre, hout, hframe, -⟩ := optionsFactory_frame env inpOptions
  refine ⟨o, hout, ?_⟩
  have horStr : orStr inpOptions.platform env.inferPlatform = p := by
    rw [hp]
    unfold orStr
    dsimp only
    rw [if_neg hne]
  rw [hframe]
  dsimp only
  rw [initialOptions_platform_of_not_alias env inpOptions (by rwa [horStr]) (by rwa [horStr])
    (by rwa [horStr]), horStr]

/-- C12 on a concrete run: the platform `Linux` keeps its capital letter. -/
theorem supplied_platform_kept_witness :
    utf16 "Linux" ≠ [] ∧
    ∃ o, (optionsFactory (referenceEnv (.rejected []) (.succeeded (utf16 "Example")))
            (onPlatform (utf16 "Linux"))).outcome = .called none o ∧
      o.platform = utf16 "Linux" :=
  ⟨by decide, supplied_platform_kept (referenceEnv (.rejected []) (.succeeded (utf16 "Example")))
    (onPlatform (utf16 "Linux")) (utf16 "Linux") rfl (by decide) (by decide) (by decide)
    (by decide)⟩

/-- C18: for every input and every answer of `inferPlatform`, the platform of the
returned configuration, lower-cased, is none of `windows`, `osx`, `mac`, and the
two alias steps applied to the returned configuration leave it unchanged. -/
theorem alias_normalisation_idempotent (env : Env) (inpOptions : InpOptions) :
    ∃ o, (optionsFactory env inpOptions).outcome = .called none o ∧
      toLowerCase o.platform ≠ utf16 "windows" ∧
      toLowerCase o.platform ≠ utf16 "osx" ∧
      toLowerCase o.platform ≠ utf16 "mac" ∧
      aliasDarwin (aliasWindows o) = o := by
  obtain ⟨o, pre, hout, hframe, -⟩ := optionsFactory_frame env inpOptions
  have hplat : o.platform = (initialOptions env inpOptions).platform := by
    rw [hframe]
  obtain ⟨hw, ho, hm⟩ := initialOptions_platform_not_alias env inpOptions
  rw [← hplat] at hw ho hm
  exact ⟨o, hout, hw, ho, hm, alias_fixed_of_not_alias o hw ho hm⟩

/-- C17: for every input and every outcome of the inference collaborators, the
configuration handed to the callback is the result of the synchronous
defaulting and aliasing step with only its icon and its name replaced. -/
theorem only_icon_and_name_change (env : Env) (inpOptions : InpOptions) :
    ∃ o, (optionsFactory env inpOptions).outcome = .called none o ∧
      o = { initialOptions env inpOptions with icon := o.icon, name := o.name } := by
  obtain ⟨o, pre, hout, hframe, -⟩ := optionsFactory_frame env inpOptions
  exact ⟨o, hout, hframe⟩

/-! ## The icon, the window size and the name -/

theorem iconTask_icon_of_unset (env : Env) (st : State) (h : iconSet st.options.icon = false) :
    (iconTask env st).2.options.icon =
      match env.inferIcon st.options.targetUrl st.options.platform with
      | .resolved pngPath => some pngPath
      | .rejected _ => st.options.icon := by
  unfold iconTask
  rw [if_neg (by simp [h])]
  dsimp only
  split <;> rfl

theorem titleTask_name_of_unset (env : Env) (st : State) (h : nameSet st.options.name = false) :
    (titleTask env st).2.options.name =
      .str (if st.options.platform = utf16 "linux" then
          env.kebabCase (match env.inferTitle st.options.targetUrl with
            | .failed _ => DEFAULT_APP_NAME
            | .succeeded pageTitle => trim pageTitle)
        else
          match env.inferTitle st.options.targetUrl with
          | .failed _ => DEFAULT_APP_NAME
          | .succeeded pageTitle => trim pageTitle) := by
  unfold titleTask
  rw [if_neg (by simp [h])]
  dsimp only
  cases env.inferTitle st.options.targetUrl <;> rfl

/-- C13: for every input with no icon supplied, the icon of the returned
configuration is undefined when icon inference rejects, and is the inferred
path when it resolves. -/
theorem icon_follows_inference (env : Env) (inpOptions : InpOptions)
    (hicon : inpOptions.icon = none) :
    ∃ o, (optionsFactory env inpOptions).outcome = .called none o ∧
      (∀ error, env.inferIcon (env.normalizeUrl inpOptions.targetUrl) o.platform
          = .rejected error → o.icon = none) ∧
      (∀ pngPath, env.inferIcon (env.normalizeUrl inpOptions.targetUrl) o.platform
          = .resolved pngPath → o.icon = some pngPath) := by
  obtain ⟨o, pre, hout, hframe, hic, -⟩ := optionsFactory_frame env inpOptions
  have hplat : o.platform = (initialOptions env inpOptions).platform := by
    rw [hframe]
  have hunset : iconSet ({ options := initialOptions env inpOptions, log := [] } : State).options.icon
      = false := by
    dsimp only
    rw [initialOptions_icon, hicon]
    rfl
  have hres := iconTask_icon_of_unset env _ hunset
  dsimp only at hres
  rw [initialOptions_targetUrl, initialOptions_icon, hicon] at hres
  rw [inferred_icon] at hic
  rw [hres, ← hplat] at hic
  refine ⟨o, hout, ?_, ?_⟩
  · intro error he
    rw [hic, he]
  · intro pngPath he
    rw [hic, he]

/-- C13 on two concrete runs: icon inference rejecting, and resolving with a path. -/
theorem icon_follows_inference_witness :
    (∃ o, (optionsFactory (referenceEnv (.rejected (utf16 "no icon")) (.succeeded (utf16 "Example")))
            (onPlatform (utf16 "Windows"))).outcome = .called none o ∧ o.icon = none) ∧
    (∃ o, (optionsFactory (referenceEnv (.resolved (utf16 "/tmp/icon.png"))
              (.succeeded (utf16 "Example")))
            (onPlatform (utf16 "Windows"))).outcome = .called none o ∧
        o.icon = some (utf16 "/tmp/icon.png")) := by
  constructor
  · obtain ⟨o, hout, hrej, -⟩ := icon_follows_inference
      (referenceEnv (.rejected (utf16 "no icon")) (.succeeded (utf16 "Example")))
      (onPlatform (utf16 "Windows")) rfl
    exact ⟨o, hout, hrej (utf16 "no icon") rfl⟩
  · obtain ⟨o, hout, -, hres⟩ := icon_follows_inference
      (referenceEnv (.resolved (utf16 "/tmp/icon.png")) (.succeeded (utf16 "Example")))
      (onPlatform (utf16 "Windows")) rfl
    exact ⟨o, hout, hres (utf16 "/tmp/icon.png") rfl⟩

/-- C14, as stated, fails: the caller supplies the width 0, and the width of the
returned configuration is the default 1280, not the supplied value. -/
theorem zero_width_gets_default :
    ({ onPlatform (utf16 "Windows") with width := some 0 } : InpOptions).width = some 0 ∧
    ∃ o, (optionsFactory (referenceEnv (.rejected []) (.succeeded (utf16 "Example")))
            { onPlatform (utf16 "Windows") with width := some 0 }).outcome = .called none o ∧
      o.width = 1280 ∧ o.width ≠ 0 :=
  ⟨rfl, _, rfl, rfl, by decide⟩

/-- C14, amended: the width of the returned configuration is the supplied width
when the caller supplies one other than 0, and 1280 when it is absent or 0; the
height is the supplied height when it is other than 0, and 800 when it is
absent or 0. -/
theorem width_height_defaults (env : Env) (inpOptions : InpOptions) :
    ∃ o, (optionsFactory env inpOptions).outcome = .called none o ∧
      (∀ n, inpOptions.width = some n → n ≠ 0 → o.width = n) ∧
      (inpOptions.width = none ∨ inpOptions.width = some 0 → o.width = 1280) ∧
      (∀ n, inpOptions.height = some n → n ≠ 0 → o.height = n) ∧
      (inpOptions.height = none ∨ inpOptions.height = some 0 → o.height = 800) := by
  obtain ⟨o, pre, hout, hframe, -⟩ := optionsFactory_frame env inpOptions
  have hwidth : o.width = orNum inpOptions.width 1280 := by
    rw [hframe]
    exact initialOptions_width env inpOptions
  have hheight : o.height = orNum inpOptions.height 800 := by
    rw [hframe]
    exact initialOptions_height env inpOptions
  refine ⟨o, hout, ?_, ?_, ?_, ?_⟩
  · intro n hn hne
    rw [hwidth, hn]
    simp [orNum, hne]
  · intro h
    rw [hwidth]
    rcases h with h | h <;> rw [h] <;> rfl
  · intro n hn hne
    rw [hheight, hn]
    simp [orNum, hne]
  · intro h
    rw [hheight]
    rcases h with h | h <;> rw [h] <;> rfl

/-- The amended C14 on a concrete run: width 1024 supplied, height absent. -/
theorem width_height_defaults_witness :
    ∃ o, (optionsFactory (referenceEnv (.rejected []) (.succeeded (utf16 "Example")))
            { onPlatform (utf16 "Windows") with width := some 1024 }).outcome = .called none o ∧
      o.width = 1024 ∧ o.height = 800 := by
  obtain ⟨o, hout, hw, -, -, hh⟩ := width_height_defaults
    (referenceEnv (.rejected []) (.succeeded (utf16 "Example")))
    { onPlatform (utf16 "Windows") with width := some 1024 }
  exact ⟨o, hout, hw 1024 rfl (by decide), hh (Or.inl rfl)⟩

theorem replaceFirst_nonAscii_spec (l : JSString) :
    ((∀ c ∈ l, c ≤ 0x7F) ∧ replaceFirst nonAscii l = l) ∨
    ∃ pre c post, l = pre ++ c :: post ∧ (∀ x ∈ pre, x ≤ 0x7F) ∧ 0x7F < c ∧
      replaceFirst nonAscii l = pre ++ post := by
  induction l with
  | nil => exact Or.inl ⟨by simp, rfl⟩
  | cons a rest ih =>
    by_cases ha : a ≤ 0x7F
    · have hstep : replaceFirst nonAscii (a :: rest) = a :: replaceFirst nonAscii rest := by
        simp [replaceFirst, nonAscii, ha]
      rcases ih with ⟨hall, heq⟩ | ⟨pre, c, post, hl, hpre, hc, heq⟩
      · left
        refine ⟨?_, by rw [hstep, heq]⟩
        intro x hx
        rcases List.mem_cons.mp hx with h | h
        · rw [h]
          exact ha
        · exact hall x h
      · right
        refine ⟨a :: pre, c, post, by rw [hl]; rfl, ?_, hc, by rw [hstep, heq]; rfl⟩
        intro x hx
        rcases List.mem_cons.mp hx with h | h
        · rw [h]
          exact ha
        · exact hpre x h
    · right
      refine ⟨[], a, rest, rfl, by simp, by omega, ?_⟩
      simp [replaceFirst, nonAscii, ha]

theorem replaceFirst_length (p : Nat → Bool) (l : JSString) :
    (replaceFirst p l).length ≤ l.length ∧ l.length ≤ (replaceFirst p l).length + 1 := by
  induction l with
  | nil => simp [replaceFirst]
  | cons a rest ih =>
    unfold replaceFirst
    split
    · simp
    · simp only [List.length_cons]
      omega

/-- C16: for every string, `sanitizeFilename` returns the output of the external
sanitizer unchanged when that output is all ASCII, and otherwise that output
with its first code unit outside 0x00..0x7F removed and nothing else; its
length is the length of the library output or one less. -/
theorem sanitizeFilename_drops_first_non_ascii (env : Env) (str : JSString) :
    (((∀ c ∈ env.sanitizeFilenameLib str, c ≤ 0x7F) ∧
        sanitizeFilename env str = env.sanitizeFilenameLib str) ∨
      ∃ pre c post, env.sanitizeFilenameLib str = pre ++ c :: post ∧
        (∀ x ∈ pre, x ≤ 0x7F) ∧ 0x7F < c ∧ sanitizeFilename env str = pre ++ post) ∧
    (sanitizeFilename env str).length ≤ (env.sanitizeFilenameLib str).length ∧
    (env.sanitizeFilenameLib str).length ≤ (sanitizeFilename env str).length + 1 :=
  ⟨replaceFirst_nonAscii_spec _, replaceFirst_length _ _⟩

theorem initialOptions_platform_ne_linux (env : Env) (inpOptions : InpOptions) (p : JSString)
    (hp : inpOptions.platform = some p) (hne : p ≠ []) (hlinux : p ≠ utf16 "linux") :
    (initialOptions env inpOptions).platform ≠ utf16 "linux" := by
  have horStr : orStr inpOptions.platform env.inferPlatform = p := by
    rw [hp]
    unfold orStr
    dsimp only
    rw [if_neg hne]
  rw [initialOptions_platform, horStr]
  dsimp only
  by_cases hw : toLowerCase p = utf16 "windows"
  · rw [if_pos hw, if_neg (by decide)]
    decide
  · rw [if_neg hw]
    by_cases hd : toLowerCase p = utf16 "osx" ∨ toLowerCase p = utf16 "mac"
    · rw [if_pos hd]
      decide
    · rw [if_neg hd]
      exact hlinux

/-- C15: the name is kebab-cased exactly when the title stage ran and the platform
of the configuration is the string `linux`. A supplied non-empty name is only
sanitised, on every platform. When the title stage runs (the test of line 86
fails), the name is the sanitised kebab-case of the trimmed title or of `APP`
on `linux`, and the sanitised trimmed title or `APP` on every other platform.
A supplied non-empty platform other than `linux` itself, such as an alias or
`Linux`, never gives the platform `linux`. -/
theorem kebab_only_for_inferred_name_on_linux (env : Env) (inpOptions : InpOptions) :
    ∃ o, (optionsFactory env inpOptions).outcome = .called none o ∧
      (∀ s, inpOptions.name = .str s → s ≠ [] → o.name = .str (sanitizeFilename env s)) ∧
      (nameSet inpOptions.name = false → o.platform = utf16 "linux" →
        o.name = .str (sanitizeFilename env (env.kebabCase
          (match env.inferTitle (env.normalizeUrl inpOptions.targetUrl) with
            | .failed _ => DEFAULT_APP_NAME
            | .succeeded pageTitle => trim pageTitle)))) ∧
      (nameSet inpOptions.name = false → o.platform ≠ utf16 "linux" →
        o.name = .str (sanitizeFilename env
          (match env.inferTitle (env.normalizeUrl inpOptions.targetUrl) with
            | .failed _ => DEFAULT_APP_NAME
            | .succeeded pageTitle => trim pageTitle))) ∧
      (∀ p, inpOptions.platform = some p → p ≠ [] → p ≠ utf16 "linux" →
        o.platform ≠ utf16 "linux") := by
  obtain ⟨o, pre, hout, hframe, -, hpre, hname⟩ := optionsFactory_frame env inpOptions
  have hplat : o.platform = (initialOptions env inpOptions).platform := by
    rw [hframe]
  rw [inferred_eq] at hpre
  dsimp only at hpre
  refine ⟨o, hout, ?_, ?_, ?_, ?_⟩
  · intro s hs hne
    have hset : nameSet (iconTask env
        { options := initialOptions env inpOptions, log := [] }).2.options.name = true := by
      rw [iconTask_name]
      dsimp only
      rw [initialOptions_name, hs]
      cases s with
      | nil => exact absurd rfl hne
      | cons c cs => simp [nameSet]
    rw [titleTask_of_set env _ hset, iconTask_name] at hpre
    dsimp only at hpre
    rw [initialOptions_name, hs] at hpre
    injection hpre with hpre
    rw [hname, ← hpre]
  · intro hunset hlinux
    have hn : nameSet (iconTask env
        { options := initialOptions env inpOptions, log := [] }).2.options.name = false := by
      rw [iconTask_name]
      dsimp only
      rw [initialOptions_name]
      exact hunset
    rw [titleTask_name_of_unset env _ hn, iconTask_platform, iconTask_targetUrl] at hpre
    dsimp only at hpre
    rw [initialOptions_targetUrl, ← hplat, if_pos hlinux] at hpre
    injection hpre with hpre
    rw [hname, ← hpre]
  · intro hunset hlinux
    have hn : nameSet (iconTask env
        { options := initialOptions env inpOptions, log := [] }).2.options.name = false := by
      rw [iconTask_name]
      dsimp only
      rw [initialOptions_name]
      exact hunset
    rw [titleTask_name_of_unset env _ hn, iconTask_platform, iconTask_targetUrl] at hpre
    dsimp only at hpre
    rw [initialOptions_targetUrl, ← hplat, if_neg hlinux] at hpre
    injection hpre with hpre
    rw [hname, ← hpre]
  · intro p hp hne hlinux
    rw [hplat]
    exact initialOptions_platform_ne_linux env inpOptions p hp hne hlinux

/-- C15 on three concrete runs: a supplied name on `linux` is not kebab-cased, an
inferred title on `linux` is, and an inferred title on `Linux` is only trimmed. -/
theorem kebab_only_for_inferred_name_on_linux_witness :
    (∃ o, (optionsFactory (referenceEnv (.rejected []) (.succeeded (utf16 "Example Site")))
            { onPlatform (utf16 "linux") with name := .str (utf16 "My App") }).outcome
          = .called none o ∧ o.name = .str (utf16 "My App")) ∧
    (∃ o, (optionsFactory (referenceEnv (.rejected []) (.succeeded (utf16 " My Cool App ")))
            (onPlatform (utf16 "linux"))).outcome = .called none o ∧
        o.name = .str (utf16 "my-cool-app")) ∧
    (∃ o, (optionsFactory (referenceEnv (.rejected []) (.succeeded (utf16 " My Cool App ")))
            (onPlatform (utf16 "Linux"))).outcome = .called none o ∧
        o.name = .str (utf16 "My Cool App")) := by
  refine ⟨?_, ?_, ?_⟩
  · obtain ⟨o, hout, h, -⟩ := kebab_only_for_inferred_name_on_linux
      (referenceEnv (.rejected []) (.succeeded (utf16 "Example Site")))
      { onPlatform (utf16 "linux") with name := .str (utf16 "My App") }
    exact ⟨o, hout, h (utf16 "My App") rfl (by decide)⟩
  · obtain ⟨o, hout, -, h, -, -⟩ := kebab_only_for_inferred_name_on_linux
      (referenceEnv (.rejected []) (.succeeded (utf16 " My Cool App ")))
      (onPlatform (utf16 "linux"))
    have hlinux : o.platform = utf16 "linux" := by
      injection hout with _ ho
      rw [← ho]
      rfl
    exact ⟨o, hout, h rfl hlinux⟩
  · obtain ⟨o, hout, -, -, h, hp⟩ := kebab_only_for_inferred_name_on_linux
      (referenceEnv (.rejected []) (.succeeded (utf16 " My Cool App ")))
      (onPlatform (utf16 "Linux"))
    exact ⟨o, hout, h rfl (hp (utf16 "Linux") rfl (by decide) (by decide))⟩

end Nativefier
